import Mathlib

/-!
Shallow embedding of the KV-Sync acquisition pipeline
(src/core/downloader.py, src/core/scraper.py, src/ui/currentDownloadsDialog.py).

File names are modelled as lists of characters, the download directory as a
flat association list from names to file data, and the network as a
per-attempt outcome function.  Streaming, chunked progress events and
cooperative cancellation are abstracted into the per-attempt outcome; sleeps
and terminal events are recorded in an event trace.
-/

/-- A file name (one component of the flat download directory). -/
abbrev Name := List Char

/-- What a file on disk looks like to the zipfile layer: either it fails to
open as a zip archive (BadZipFile), or it opens as a zip with a list of
member names and an optional first bad entry, which is what
ZipFile.testzip returns. -/
inductive FileData
  | notZip
  | zip (members : List Name) (badEntry : Option Name)
deriving DecidableEq

/-- The download directory: an association list from file names to data. -/
abbrev FS := List (Name × FileData)

/-- Look a file up by name (first matching entry). -/
def fsLookup : FS → Name → Option FileData
  | [], _ => none
  | (k, v) :: fs, n => if n = k then some v else fsLookup fs n

/-- Remove every entry with the given name (Path.unlink). -/
def fsErase (fs : FS) (n : Name) : FS := fs.filter (fun p => p.1 ≠ n)

/-- Write a file, replacing any existing entry of that name (open for write,
or the target side of Path.rename, which overwrites on POSIX). -/
def fsInsert (fs : FS) (n : Name) (v : FileData) : FS := (n, v) :: fsErase fs n

/-- Python substring containment: pat in l. -/
def containsSeq (pat : Name) : Name → Bool
  | [] => pat.isEmpty
  | a :: t => pat.isPrefixOf (a :: t) || containsSeq pat t

/-- Fueled helper for replaceL; the fuel is an upper bound on the length of
the remaining list, so the recursion is structural and kernel-reducible. -/
def replaceAux (pat rep : Name) : Nat → Name → Name
  | 0, l => l
  | _ + 1, [] => []
  | fuel + 1, a :: l =>
    if pat ≠ [] ∧ pat.isPrefixOf (a :: l) then
      rep ++ replaceAux pat rep fuel ((a :: l).drop pat.length)
    else
      a :: replaceAux pat rep fuel l

/-- Python str.replace: replace every non-overlapping occurrence of pat by
rep, scanning left to right (for a nonempty pattern). -/
def replaceL (pat rep l : Name) : Name := replaceAux pat rep l.length l

/-- pathlib suffix: the file extension from the last dot, empty when the
name has no dot, starts with its only dot, or ends with the dot. -/
def pathSuffix (n : Name) : Name :=
  let k := n.reverse.findIdx (· == '.')
  if k < n.length then
    let i := n.length - 1 - k
    if 0 < i ∧ i < n.length - 1 then n.drop i else []
  else []

/-- The name with its pathlib suffix removed (the stem plus any leading
directories, here just the stem). -/
def dropSuffixN (n : Name) : Name := n.take (n.length - (pathSuffix n).length)

/-- pathlib with_suffix applied with the literal suffix .zip.bak, as in
handle_zip_extraction. -/
def bakName (n : Name) : Name := dropSuffixN n ++ ".zip.bak".toList

/-- Python str.rstrip: drop trailing whitespace. -/
def rstripL (l : Name) : Name := (l.reverse.dropWhile Char.isWhitespace).reverse

/-- The characters retained by the filename sanitizer: alphanumeric, space,
dash, underscore, dot. -/
def allowedChar (c : Char) : Bool :=
  c.isAlphanum || c == ' ' || c == '-' || c == '_' || c == '.'

/-- Modelled from the spec: sanitize_filename lives in src/core/utils.py,
which is not part of the given sources.  The spec states the destination
filename is computed from artist, title and item id, sanitized so that only
alphanumeric characters, space, dash, underscore and dot are retained and
trailing whitespace is trimmed; the inline sanitizer in
SingleDownloadThread.run (src/ui/currentDownloadsDialog.py) implements
exactly this on the string "artist - title - id.zip" and is mirrored here. -/
def sanitize_filename (artist title song_id : String) : Name :=
  rstripL (((artist ++ " - " ++ title ++ " - " ++ song_id ++ ".zip").toList).filter allowedChar)

/-- True when the name does not end in a whitespace character. -/
def noTrailingWs (l : Name) : Bool :=
  match l.getLast? with
  | some c => !c.isWhitespace
  | none => true

/-- Split a character list on a separator character (Python str.split with a
one-character separator, as used by the date parser). -/
def splitOnChar (c : Char) : List Char → List (List Char)
  | [] => [[]]
  | a :: t =>
    match splitOnChar c t with
    | [] => if a = c then [[], []] else [[a]]
    | h :: r => if a = c then [] :: h :: r else (a :: h) :: r

/-- strptime %y century rule: two-digit years up to 68 are in the 2000s. -/
def twoDigitYear (y : Nat) : Nat := if y ≤ 68 then 2000 + y else 1900 + y

/-- Zero-pad a number to two digits for strftime %m / %d. -/
def pad2 (n : Nat) : String := if n < 10 then "0" ++ toString n else toString n

/-- Numeric value of a digit string. -/
def digitsVal (l : List Char) : Nat := l.foldl (fun n c => n * 10 + (c.toNat - 48)) 0

/-- SongScraper.parse_date: approximate model of
datetime.strptime(s, "%m/%d/%y").strftime("%Y-%m-%d"); none on ValueError.
No claim depends on the internals of the date format check. -/
def parse_date (s : String) : Option String :=
  match splitOnChar '/' s.toList with
  | [lm, ld, ly] =>
    if lm ≠ [] ∧ lm.length ≤ 2 ∧ lm.all Char.isDigit
        ∧ ld ≠ [] ∧ ld.length ≤ 2 ∧ ld.all Char.isDigit
        ∧ ly ≠ [] ∧ ly.length ≤ 2 ∧ ly.all Char.isDigit then
      let mv := digitsVal lm
      let dv := digitsVal ld
      if 1 ≤ mv ∧ mv ≤ 12 ∧ 1 ≤ dv ∧ dv ≤ 31 then
        some (toString (twoDigitYear (digitsVal ly)) ++ "-" ++ pad2 mv ++ "-" ++ pad2 dv)
      else none
    else none
  | _ => none

/-! ## Download engine (src/core/downloader.py) -/

/-- Observable events of SongDownloader.download_song: a network round
(direct-URL resolution plus the streamed GET of one attempt), a backoff
sleep of the given duration, and the terminal Qt signals download_finished
and download_failed.  Chunk progress events are not modelled; no claim
concerns them. -/
inductive Event
  | net
  | slept (t : ℚ)
  | finished (id : String)
  | failed (id : String) (msg : String)
deriving DecidableEq

/-- The outcome of one transfer attempt, abstracting URL resolution, the
streamed GET and the chunk loop: a requests.RequestException, any other
exception (including the raise on a missing direct URL and filesystem
errors), or a fully written destination file with the given data. -/
inductive Outcome
  | raiseNetwork (msg : String)
  | raiseOther (msg : String)
  | success (data : FileData)
deriving DecidableEq

/-- True when the outcome is an exception of either kind. -/
def isRaise : Outcome → Bool
  | Outcome.raiseNetwork _ => true
  | Outcome.raiseOther _ => true
  | Outcome.success _ => false

/-- True when the outcome is a fully written file. -/
def isSuccess : Outcome → Bool
  | Outcome.success _ => true
  | _ => false

/-- The message carried by an exception outcome (str(e)). -/
def raiseMsg : Outcome → String
  | Outcome.raiseNetwork m => m
  | Outcome.raiseOther m => m
  | Outcome.success _ => ""

/-- Event classifiers used to count attempts, sleeps and terminal signals. -/
def isNetB : Event → Bool
  | Event.net => true
  | _ => false

/-- True for a backoff sleep event. -/
def isSleptB : Event → Bool
  | Event.slept _ => true
  | _ => false

/-- True for a terminal download_finished event. -/
def isFinishedB : Event → Bool
  | Event.finished _ => true
  | _ => false

/-- True for a terminal download_failed event. -/
def isFailedB : Event → Bool
  | Event.failed _ _ => true
  | _ => false

/-- The song dictionary as the downloader sees it (song_id, artist and title
are present strings; downloaded and extracted are the 0/1 flags the code
stores; file_path is the stored list of filenames). -/
structure Song where
  song_id : String
  artist : String
  title : String
  downloaded : Nat
  extracted : Nat
  file_path : List Name
deriving DecidableEq

/-- State threaded through download_song: the download directory, the event
trace, and the mutable song dictionary. -/
structure DLState where
  fs : FS
  events : List Event
  song : Song
deriving DecidableEq

/-- Append events to the trace. -/
def pushEvents (st : DLState) (es : List Event) : DLState :=
  { st with events := st.events ++ es }

/-- max_retries in download_song. -/
def max_retries : Nat := 5

/-- backoff_factor in download_song. -/
def backoff_factor : ℚ := 1

/-- song_id with a leading KV stripped, as in handle_zip_extraction
(song_id[2:] if song_id.startswith("KV") else song_id). -/
def baseId (song_id : String) : Name :=
  let l := song_id.toList
  if l.take 2 = ['K', 'V'] then l.drop 2 else l

/-- The replacement f"KV{base_id_numeric}" used by the extraction rename. -/
def kvName (base : Name) : Name := 'K' :: 'V' :: base

/-- ZipFile(zip_file_path).extractall(extract_dir): when the file opens as a
zip, every member is written into the directory; a BadZipFile or missing
file is caught and logged, leaving the directory unchanged. -/
def extractArchive (fs : FS) (zipName : Name) : FS :=
  match fsLookup fs zipName with
  | some (FileData.zip members _) =>
      members.foldl (fun a m => fsInsert a m FileData.notZip) fs
  | _ => fs

/-- The rename loop of handle_zip_extraction over a snapshot of the
directory listing: a file whose name contains the numeric id and whose
suffix is .mp3 or .cdg is renamed with the numeric id replaced by
KV plus the numeric id, and the new name is appended to the result; a
rename on a vanished file raises, is logged, and appends nothing. -/
def renameLoop (base : Name) : List Name → List Name × FS → List Name × FS
  | [], acc => acc
  | f :: rest, (files, fs) =>
    if containsSeq base f = true
        ∧ (pathSuffix f = ".mp3".toList ∨ pathSuffix f = ".cdg".toList) then
      match fsLookup fs f with
      | some v =>
          renameLoop base rest
            (files ++ [replaceL base (kvName base) f], fsInsert (fsErase fs f) (replaceL base (kvName base) f) v)
      | none => renameLoop base rest (files, fs)
    else renameLoop base rest (files, fs)

/-- SongDownloader.handle_zip_extraction: extract, rename payload files,
then either unlink the archive or rename it to its .zip.bak sibling and
append that sibling name; returns the collected filenames and the new
directory state. -/
def handle_zip_extraction (fs : FS) (zipName : Name) (song_id : String) (deleteZip : Bool) :
    List Name × FS :=
  let base := baseId song_id
  let fs1 := extractArchive fs zipName
  let lr := renameLoop base (fs1.map Prod.fst) ([], fs1)
  if deleteZip then
    (lr.1, fsErase lr.2 zipName)
  else
    match fsLookup lr.2 zipName with
    | some v => (lr.1 ++ [bakName zipName], fsInsert (fsErase lr.2 zipName) (bakName zipName) v)
    | none => (lr.1, lr.2)

/-- SongDownloader.verify_zip_file: open the archive and call testzip.
A BadZipFile (the file exists but does not open as a zip) is caught, the
file is unlinked and False is returned.  A missing file raises
FileNotFoundError, which is caught by the generic handler whose unlink
raises FileNotFoundError again, so the exception escapes the method.  When
the file opens as a zip the method returns True: the name testzip returns
for a bad entry is discarded by the source. -/
def verify_zip_file (fs : FS) (n : Name) : Except String (Bool × FS) :=
  match fsLookup fs n with
  | some (FileData.zip _ _) => Except.ok (true, fs)
  | some FileData.notZip => Except.ok (false, fsErase fs n)
  | none => Except.error "FileNotFoundError"

/-- The successful-transfer body of one attempt before verification
(lines 85 to 104 of downloader.py): write the destination, optionally
extract when unzip_songs is set and the destination has a .zip suffix, then
store file_path, extracted and downloaded on the song. -/
def successStep (unzip deleteZip : Bool) (fileName : Name) (d : FileData) (st : DLState) : DLState :=
  let st2 : DLState := { st with fs := fsInsert st.fs fileName d }
  if unzip = true ∧ pathSuffix fileName = ".zip".toList then
    let ex := handle_zip_extraction st2.fs fileName st.song.song_id deleteZip
    { st2 with fs := ex.2,
               song := { st2.song with extracted := 1, file_path := ex.1, downloaded := 1 } }
  else
    { st2 with song := { st2.song with extracted := 0, file_path := [fileName], downloaded := 1 } }

/-- The retry loop of download_song over the remaining attempt numbers
(range(1, max_retries + 1)).  A requests.RequestException emits the terminal
failure on the last attempt and otherwise retries immediately; any other
exception emits the terminal failure on the last attempt and otherwise
sleeps backoff_factor * 2^(attempt-1) plus jitter before retrying.  A
successful transfer runs extraction and verification; a verification
exception is handled by the generic except branch. -/
def attemptLoop (env : Nat → Outcome) (jitter : Nat → ℚ) (unzip deleteZip : Bool)
    (fileName : Name) : List Nat → DLState → DLState
  | [], st => st
  | a :: rest, st =>
    let sid := st.song.song_id
    let st1 := pushEvents st [Event.net]
    match env a with
    | Outcome.raiseNetwork m =>
        if a = max_retries then pushEvents st1 [Event.failed sid m]
        else attemptLoop env jitter unzip deleteZip fileName rest st1
    | Outcome.raiseOther m =>
        if a = max_retries then pushEvents st1 [Event.failed sid m]
        else
          attemptLoop env jitter unzip deleteZip fileName rest
            (pushEvents st1 [Event.slept (backoff_factor * 2 ^ (a - 1) + jitter a)])
    | Outcome.success d =>
        let st4 := successStep unzip deleteZip fileName d st1
        match verify_zip_file st4.fs fileName with
        | Except.ok (true, fs5) =>
            pushEvents { st4 with fs := fs5 } [Event.finished sid]
        | Except.ok (false, fs5) =>
            pushEvents
              { st4 with fs := fs5, song := { st4.song with downloaded := 0 } }
              [Event.failed sid "Zip file verification failed."]
        | Except.error m =>
            if a = max_retries then pushEvents st4 [Event.failed sid m]
            else
              attemptLoop env jitter unzip deleteZip fileName rest
                (pushEvents st4 [Event.slept (backoff_factor * 2 ^ (a - 1) + jitter a)])

/-- SongDownloader.download_song: compute the sanitized destination name;
if it already exists, mark the song downloaded with that single filename
and emit download_finished without any network activity; otherwise run the
retry loop for attempts 1 to max_retries. -/
def download_song (env : Nat → Outcome) (jitter : Nat → ℚ) (unzip deleteZip : Bool)
    (st : DLState) : DLState :=
  let fileName := sanitize_filename st.song.artist st.song.title st.song.song_id
  if (fsLookup st.fs fileName).isSome then
    { st with song := { st.song with file_path := [fileName], downloaded := 1 },
              events := st.events ++ [Event.finished st.song.song_id] }
  else
    attemptLoop env jitter unzip deleteZip fileName (List.range' 1 max_retries) st

/-- The sleep inserted after a non-final attempt, depending on the kind of
exception that attempt raised: only the generic except branch sleeps. -/
def raiseGap (env : Nat → Outcome) (jitter : Nat → ℚ) (a : Nat) : List Event :=
  match env a with
  | Outcome.raiseOther _ => [Event.slept (backoff_factor * 2 ^ (a - 1) + jitter a)]
  | _ => []

/-- The event trace of a run of the retry loop in which every attempt
raises an exception. -/
def raiseTrace (env : Nat → Outcome) (jitter : Nat → ℚ) (sid : String) : List Nat → List Event
  | [] => []
  | a :: rest =>
    if a = max_retries then [Event.net, Event.failed sid (raiseMsg (env a))]
    else Event.net :: (raiseGap env jitter a ++ raiseTrace env jitter sid rest)

/-! ## Catalog scraper (src/core/scraper.py) -/

/-- One parsed row of the my-downloads listing: a song record.  The song id
is optional because the source stores None when the vote button or its
data-songid attribute is missing. -/
structure ScrapedSong where
  song_id : Option String
  artist : String
  artist_url : Option String
  title : String
  title_url : Option String
  order_date : Option String
  download_url : Option String
deriving DecidableEq

/-- One tr.vam row of the listing page as BeautifulSoup sees it.
songAnchor is the anchor inside the song cell (its text and optional href);
none stands for a missing song cell or missing anchor, either of which
raises AttributeError in the source.  downloadAnchor is the
my-downloaded-files__action anchor (with its optional href); none again
raises.  songIdVal is the data-songid attribute of the vote button, none
when the button or the attribute is absent. -/
structure Row where
  songAnchor : Option (String × Option String)
  artistText : String
  artistUrl : Option String
  dateText : Option String
  downloadAnchor : Option (Option String)
  songIdVal : Option String
deriving DecidableEq

/-- The record built for one row (lines 67 to 80 of scraper.py); total, but
only used on rows whose required anchors are present.  A data-songid that
is absent or empty (falsy) yields song_id None, otherwise "KV" + value. -/
def rowToSong (r : Row) : ScrapedSong :=
  let anchor := r.songAnchor.getD ("", none)
  { song_id :=
      match r.songIdVal with
      | some v => if v = "" then none else some ("KV" ++ v)
      | none => none,
    artist := r.artistText,
    artist_url := r.artistUrl,
    title := anchor.1,
    title_url := anchor.2,
    order_date := r.dateText.bind parse_date,
    download_url := r.downloadAnchor.getD none }

/-- A row can be processed without raising AttributeError exactly when the
song anchor and the download action anchor are both present. -/
def requiredOk (r : Row) : Bool := r.songAnchor.isSome && r.downloadAnchor.isSome

/-- The row loop of scrape_songs_on_page: rows are appended in order; the
first row whose required anchors are missing raises, and the page-level
except returns the empty list with has_next_page False. -/
def scrapeRows (hasNext : Bool) : List Row → List ScrapedSong → List ScrapedSong × Bool
  | [], acc => (acc, hasNext)
  | r :: rest, acc =>
    match r.songAnchor, r.downloadAnchor with
    | some _, some _ => scrapeRows hasNext rest (acc ++ [rowToSong r])
    | _, _ => ([], false)

/-- SongScraper.scrape_songs_on_page on a fetched page, given its rows and
whether a rel=next pagination link is present. -/
def scrape_songs_on_page (rows : List Row) (hasNext : Bool) : List ScrapedSong × Bool :=
  scrapeRows hasNext rows []

/-- Python truthiness of the optional last_song_id argument: None and the
empty string are falsy. -/
def truthyId : Option String → Bool
  | none => false
  | some s => !(s == "")

/-- The early-exit condition of scrape_all_pages for one song:
last_song_id and song["song_id"] == last_song_id and not validate. -/
def stopAt (lastId : Option String) (validate : Bool) (s : ScrapedSong) : Bool :=
  truthyId lastId && s.song_id == lastId && !validate

/-- The inner song loop of scrape_all_pages: accumulate songs of one page
until the early-exit condition fires; returns the new accumulator and
whether the cutoff was found. -/
def accumSongs (lastId : Option String) (validate : Bool) :
    List ScrapedSong → List ScrapedSong → List ScrapedSong × Bool
  | [], acc => (acc, false)
  | s :: rest, acc =>
    if stopAt lastId validate s then (acc, true)
    else accumSongs lastId validate rest (acc ++ [s])

/-- The as_completed loop of scrape_all_pages over page results in
completion order; once the cutoff song was found no further page result is
accumulated. -/
def pagesLoop (lastId : Option String) (validate : Bool) :
    List (List ScrapedSong × Bool) → List ScrapedSong → List ScrapedSong
  | [], acc => acc
  | p :: rest, acc =>
    let r := accumSongs lastId validate p.1 acc
    if r.2 then r.1 else pagesLoop lastId validate rest r.1

/-- SongScraper.scrape_all_pages, given the page results (the pair each
future returns) in the order as_completed yields them; scrape_songs_on_page
never raises, so the per-future except is dead and not modelled. -/
def scrape_all_pages (pages : List (List ScrapedSong × Bool))
    (last_song_id : Option String) (validate : Bool) : List ScrapedSong :=
  pagesLoop last_song_id validate pages []

/-- All songs of all pages in completion order. -/
def allPageSongs (pages : List (List ScrapedSong × Bool)) : List ScrapedSong :=
  (pages.map Prod.fst).flatten

/-! ## Concrete fixtures used to instantiate the theorems -/

/-- A song whose sanitized destination is "a - b - KV1.zip". -/
def fxSong : Song := ⟨"KV1", "a", "b", 0, 0, []⟩

/-- Initial state: empty download directory, empty trace. -/
def fxState : DLState := ⟨[], [], fxSong⟩

/-- A transfer backend failing every attempt with a network-layer error. -/
def envAllNetwork : Nat → Outcome := fun _ => Outcome.raiseNetwork "connection reset"

/-- A transfer backend alternating non-network and network errors. -/
def envMixedRaise : Nat → Outcome :=
  fun a => if a % 2 = 0 then Outcome.raiseNetwork "neterr" else Outcome.raiseOther "oserr"

/-- A transfer backend that always fully writes a file that is not a valid
zip archive. -/
def envNotZip : Nat → Outcome := fun _ => Outcome.success FileData.notZip

/-- A transfer backend that always fully writes a well-formed empty zip. -/
def envGoodZip : Nat → Outcome := fun _ => Outcome.success (FileData.zip [] none)

/-- Deterministic jitter draws. -/
def jitterZero : Nat → ℚ := fun _ => 0

/-- A directory already holding the destination of fxSong. -/
def fxHaveFS : FS := [(sanitize_filename "a" "b" "KV1", FileData.notZip)]

/-- A directory holding an archive with one payload member. -/
def fxZipFS : FS := [("archive.zip".toList, FileData.zip ["track42.mp3".toList] none)]

/-- A directory holding an archive that opens but has a bad entry. -/
def fxBadEntryFS : FS :=
  [("a.zip".toList, FileData.zip ["m.mp3".toList] (some "m.mp3".toList))]

/-- A listing row with every field present. -/
def rowFull : Row := ⟨some ("Song A", some "/a"), "Artist", some "/ar", none, some (some "/dl"), some "42"⟩

/-- A listing row with no download action anchor. -/
def rowNoDl : Row := ⟨some ("Song B", none), "B", none, none, none, some "43"⟩

/-- A listing row with no vote button, hence no item id. -/
def rowNoId : Row := ⟨some ("Song C", none), "C", none, none, some none, none⟩

/-- Scraped songs used by the incremental-sync fixtures. -/
def fxSongA : ScrapedSong := ⟨some "KV1", "a", none, "t1", none, none, none⟩

/-- Second fixture song; its id is used as the cutoff. -/
def fxSongB : ScrapedSong := ⟨some "KV2", "a", none, "t2", none, none, none⟩

/-- Third fixture song, ordered after the cutoff. -/
def fxSongC : ScrapedSong := ⟨some "KV3", "a", none, "t3", none, none, none⟩

/-- Two completed page results containing the cutoff id in the middle. -/
def fxPages : List (List ScrapedSong × Bool) := [([fxSongA, fxSongB], true), ([fxSongC], false)]

/-! ## Helper lemmas about the filesystem model -/

theorem fsLookup_fsErase_self (fs : FS) (n : Name) : fsLookup (fsErase fs n) n = none := by
  induction fs with
  | nil => rfl
  | cons p fs ih =>
    by_cases h : p.1 = n
    · simpa [fsErase, List.filter_cons, h] using ih
    · simpa [fsErase, List.filter_cons, h, fsLookup, Ne.symm h] using ih

theorem fsLookup_fsErase_ne (fs : FS) (n m : Name) (h : m ≠ n) :
    fsLookup (fsErase fs n) m = fsLookup fs m := by
  induction fs with
  | nil => rfl
  | cons p fs ih =>
    by_cases hp : p.1 = n
    · simp only [fsErase, List.filter_cons, hp, fsLookup, h] at *
      simpa [fsErase, hp, fsLookup, h] using ih
    · by_cases hm : m = p.1
      · simp [fsErase, List.filter_cons, hp, fsLookup, hm]
      · simp [fsErase, List.filter_cons, hp, fsLookup, hm] at *
        exact ih

theorem fsLookup_fsInsert_self (fs : FS) (n : Name) (v : FileData) :
    fsLookup (fsInsert fs n v) n = some v := by
  simp [fsInsert, fsLookup]

theorem fsLookup_fsInsert_ne (fs : FS) (n m : Name) (v : FileData) (h : m ≠ n) :
    fsLookup (fsInsert fs n v) m = fsLookup fs m := by
  simp [fsInsert, fsLookup, h]
  exact fsLookup_fsErase_ne fs n m h

theorem fsLookup_isSome_of_mem (fs : FS) (n : Name) (h : n ∈ fs.map Prod.fst) :
    (fsLookup fs n).isSome = true := by
  induction fs with
  | nil => simp at h
  | cons p fs ih =>
    simp only [List.map_cons, List.mem_cons] at h
    by_cases hn : n = p.1
    · simp [fsLookup, hn]
    · rcases h with h | h
      · exact absurd h hn
      · simpa [fsLookup, hn] using ih h

/-! ## Helper lemmas about list utilities -/

theorem mem_of_mem_rstripL {x : Char} {l : Name} (h : x ∈ rstripL l) : x ∈ l := by
  unfold rstripL at h
  rw [List.mem_reverse] at h
  have h2 : x ∈ l.reverse := (List.dropWhile_suffix Char.isWhitespace).subset h
  exact List.mem_reverse.mp h2

theorem head?_dropWhile_not (p : Char → Bool) :
    ∀ (l : List Char) (c : Char), (l.dropWhile p).head? = some c → p c = false := by
  intro l
  induction l with
  | nil => intro c h; simp [List.dropWhile] at h
  | cons a t ih =>
    intro c h
    by_cases hp : p a
    · rw [List.dropWhile_cons_of_pos hp] at h
      exact ih c h
    · rw [List.dropWhile_cons_of_neg hp] at h
      simp only [List.head?_cons, Option.some.injEq] at h
      rw [← h]
      simpa using hp

theorem noTrailingWs_rstripL (l : Name) : noTrailingWs (rstripL l) = true := by
  have hg : (rstripL l).getLast? = (l.reverse.dropWhile Char.isWhitespace).head? :=
    List.getLast?_reverse _
  unfold noTrailingWs
  rw [hg]
  cases hh : (l.reverse.dropWhile Char.isWhitespace).head? with
  | none => rfl
  | some c => simp [head?_dropWhile_not Char.isWhitespace l.reverse c hh]

/-- C9: for every artist, title and item id, the computed destination
filename contains only alphanumeric characters, spaces, dashes, underscores
and dots, and has no trailing whitespace. -/
theorem sanitize_filename_wellformed (a t i : String) :
    ((sanitize_filename a t i).all allowedChar = true)
      ∧ (noTrailingWs (sanitize_filename a t i) = true) := by
  constructor
  · rw [List.all_eq_true]
    intro c hc
    have hc2 := mem_of_mem_rstripL hc
    exact (List.mem_filter.mp hc2).2
  · exact noTrailingWs_rstripL _

/-- C4: whenever verify_zip_file returns False, the unlink in the handler
succeeded first, so the file no longer exists in the resulting directory. -/
theorem verify_false_deletes (fs : FS) (n : Name) (fs' : FS)
    (h : verify_zip_file fs n = Except.ok (false, fs')) : fsLookup fs' n = none := by
  unfold verify_zip_file at h
  cases hl : fsLookup fs n with
  | none => rw [hl] at h; cases h
  | some d =>
    cases d with
    | notZip =>
      rw [hl] at h
      simp only [Except.ok.injEq, Prod.mk.injEq, true_and] at h
      rw [← h]
      exact fsLookup_fsErase_self fs n
    | zip mem bad => rw [hl] at h; simp at h

/-- Witness for C4 at a concrete corrupt file. -/
theorem verify_false_deletes_witness :
    fsLookup (fsErase fxHaveFS (sanitize_filename "a" "b" "KV1")) (sanitize_filename "a" "b" "KV1") = none :=
  verify_false_deletes fxHaveFS (sanitize_filename "a" "b" "KV1")
    (fsErase fxHaveFS (sanitize_filename "a" "b" "KV1")) rfl

/-- C3: the source discards the value returned by ZipFile.testzip, so an
archive that opens successfully but whose integrity check reports a bad
entry is reported as valid: verify returns True and retains the file,
where both its docstring and the spec require False. -/
theorem verify_ignores_testzip_bad_entry :
    verify_zip_file fxBadEntryFS "a.zip".toList = Except.ok (true, fxBadEntryFS) := rfl

/-! ## Scraper: page parsing (claim C6) -/

theorem scrapeRows_characterization (hasNext : Bool) :
    ∀ (rows : List Row) (acc : List ScrapedSong),
      scrapeRows hasNext rows acc
        = if rows.all requiredOk then (acc ++ rows.map rowToSong, hasNext) else ([], false) := by
  intro rows
  induction rows with
  | nil => intro acc; simp [scrapeRows]
  | cons r rest ih =>
    intro acc
    cases hA : r.songAnchor with
    | none => simp [scrapeRows, hA, requiredOk]
    | some a =>
      cases hD : r.downloadAnchor with
      | none => simp [scrapeRows, hA, hD, requiredOk]
      | some d =>
        simp [scrapeRows, hA, hD, requiredOk, List.all_cons, ih]

/-- C6 amended: a listing row is included only if its song anchor and its
download action anchor are present; when every row of the page has them,
all rows are returned in order (a missing artist link, date or item id does
not exclude a row, a missing or empty data-songid yields a None id); when
any row lacks one of the two required anchors, the AttributeError escapes
the row loop and the page-level handler returns the empty page with
has_next_page False, so the other rows of the page are dropped too. -/
theorem scrape_page_characterization (rows : List Row) (hasNext : Bool) :
    scrape_songs_on_page rows hasNext
      = if rows.all requiredOk then (rows.map rowToSong, hasNext) else ([], false) := by
  simpa [scrape_songs_on_page] using scrapeRows_characterization hasNext rows []

/-- Counterexample to C6 as stated: a complete row parses on its own, yet
adding a row without a download anchor empties the whole page (the bad row
is not skipped in isolation), and a row without any item id is included
with a None id rather than skipped. -/
theorem scrape_page_row_skip_cex :
    scrape_songs_on_page [rowFull] true
        = ([⟨some "KV42", "Artist", some "/ar", "Song A", some "/a", none, some "/dl"⟩], true)
      ∧ scrape_songs_on_page [rowFull, rowNoDl] true = ([], false)
      ∧ scrape_songs_on_page [rowNoId] true
        = ([⟨none, "C", none, "Song C", none, none, none⟩], true) :=
  ⟨by decide, by decide, by decide⟩

/-! ## Scraper: incremental sync (claim C8) -/

theorem takeWhile_append_of_all {α} (p : α → Bool) (l₁ l₂ : List α) (h : l₁.all p = true) :
    (l₁ ++ l₂).takeWhile p = l₁ ++ l₂.takeWhile p := by
  induction l₁ with
  | nil => simp
  | cons a t ih =>
    simp only [List.all_cons, Bool.and_eq_true] at h
    simp [List.takeWhile_cons, h.1, ih h.2]

theorem takeWhile_append_of_stop {α} (p : α → Bool) (l₁ l₂ : List α) (h : l₁.all p = false) :
    (l₁ ++ l₂).takeWhile p = l₁.takeWhile p := by
  induction l₁ with
  | nil => simp at h
  | cons a t ih =>
    by_cases ha : p a
    · simp only [List.all_cons, ha, Bool.true_and] at h
      simp [List.takeWhile_cons, ha, ih h]
    · simp [List.takeWhile_cons, ha]

theorem mem_takeWhile_pred {α} (p : α → Bool) :
    ∀ (l : List α) (x : α), x ∈ l.takeWhile p → p x = true := by
  intro l
  induction l with
  | nil => intro x h; simp at h
  | cons a t ih =>
    intro x h
    by_cases ha : p a
    · rw [List.takeWhile_cons_of_pos ha] at h
      rcases List.mem_cons.mp h with h | h
      · rwa [h]
      · exact ih x h
    · rw [List.takeWhile_cons_of_neg ha] at h
      simp at h

theorem takeWhile_const_true {α} (l : List α) : l.takeWhile (fun _ => true) = l := by
  induction l with
  | nil => rfl
  | cons a t ih => simp [List.takeWhile_cons, ih]

theorem takeWhile_of_all {α} (p : α → Bool) (l : List α) (h : l.all p = true) :
    l.takeWhile p = l := by
  induction l with
  | nil => rfl
  | cons a t ih =>
    simp only [List.all_cons, Bool.and_eq_true] at h
    simp [List.takeWhile_cons, h.1, ih h.2]

theorem accumSongs_spec (lastId : Option String) (validate : Bool) :
    ∀ (ss acc : List ScrapedSong),
      accumSongs lastId validate ss acc
        = (acc ++ ss.takeWhile (fun s => !stopAt lastId validate s),
           !ss.all (fun s => !stopAt lastId validate s)) := by
  intro ss
  induction ss with
  | nil => intro acc; simp [accumSongs]
  | cons s rest ih =>
    intro acc
    by_cases h : stopAt lastId validate s
    · simp [accumSongs, h, List.takeWhile_cons, List.all_cons]
    · have hb : stopAt lastId validate s = false := by simpa using h
      simp [accumSongs, hb, List.takeWhile_cons, List.all_cons, ih]

theorem pagesLoop_spec (lastId : Option String) (validate : Bool) :
    ∀ (pages : List (List ScrapedSong × Bool)) (acc : List ScrapedSong),
      pagesLoop lastId validate pages acc
        = acc ++ (allPageSongs pages).takeWhile (fun s => !stopAt lastId validate s) := by
  intro pages
  induction pages with
  | nil => intro acc; simp [pagesLoop, allPageSongs]
  | cons p rest ih =>
    intro acc
    have hjoin : allPageSongs (p :: rest) = p.1 ++ allPageSongs rest := by
      simp [allPageSongs]
    by_cases hall : p.1.all (fun s => !stopAt lastId validate s) = true
    · simp only [pagesLoop, accumSongs_spec, hall, Bool.not_true]
      rw [if_neg Bool.false_ne_true, ih, hjoin,
        takeWhile_append_of_all _ _ _ hall, takeWhile_of_all _ _ hall]
      simp [List.append_assoc]
    · have hf : p.1.all (fun s => !stopAt lastId validate s) = false := by
        simpa using hall
      simp only [pagesLoop, accumSongs_spec, hf, Bool.not_false]
      rw [if_pos trivial, hjoin, takeWhile_append_of_stop _ _ _ hf]

/-- C8: with a provided (truthy) last-seen id and validate False, the scan
over completed page results stops at the first song carrying that id: the
result is exactly the prefix of the scanned songs before the first match,
so no returned song carries the id and nothing scanned after the match is
accumulated; with validate True no early exit happens and every song of
every completed page is accumulated whatever last id is passed. -/
theorem scrape_all_cutoff (pages : List (List ScrapedSong × Bool)) (s : String) (hs : s ≠ "") :
    (∀ it ∈ scrape_all_pages pages (some s) false, it.song_id ≠ some s)
      ∧ scrape_all_pages pages (some s) false
        = (allPageSongs pages).takeWhile (fun it => !(it.song_id == some s))
      ∧ ∀ lastId, scrape_all_pages pages lastId true = allPageSongs pages := by
  have hstop : ∀ it : ScrapedSong, stopAt (some s) false it = (it.song_id == some s) := by
    intro it
    simp [stopAt, truthyId, hs]
  have hmain : scrape_all_pages pages (some s) false
      = (allPageSongs pages).takeWhile (fun it => !(it.song_id == some s)) := by
    unfold scrape_all_pages
    rw [pagesLoop_spec]
    simp only [hstop, List.nil_append]
  refine ⟨?_, hmain, ?_⟩
  · intro it hit heq
    rw [hmain] at hit
    have := mem_takeWhile_pred _ _ _ hit
    rw [heq] at this
    simp at this
  · intro lastId
    unfold scrape_all_pages
    rw [pagesLoop_spec]
    have : (fun s => !stopAt lastId true s) = (fun _ : ScrapedSong => true) := by
      funext x
      simp [stopAt]
    rw [this, takeWhile_const_true]
    simp

/-- Witness for C8 at a concrete two-page completion order with the cutoff
id in the middle of the first page. -/
theorem scrape_all_cutoff_witness :
    scrape_all_pages fxPages (some "KV2") false
      = (allPageSongs fxPages).takeWhile (fun it => !(it.song_id == some "KV2")) :=
  (scrape_all_cutoff fxPages "KV2" (by decide)).2.1

/-! ## Downloader: idempotent short-circuit (claim C5) -/

/-- C5: when the computed destination already exists on disk, download_song
performs no network round at all, stores the single destination filename
and the downloaded flag on the song, and emits exactly one
download_finished event; running it again from the resulting state does the
same, again with no network round. -/
theorem download_song_existing_short_circuit (env : Nat → Outcome) (jitter : Nat → ℚ)
    (unzip deleteZip : Bool) (fs : FS) (song : Song)
    (h : (fsLookup fs (sanitize_filename song.artist song.title song.song_id)).isSome = true) :
    (download_song env jitter unzip deleteZip ⟨fs, [], song⟩).fs = fs
      ∧ (download_song env jitter unzip deleteZip ⟨fs, [], song⟩).events
          = [Event.finished song.song_id]
      ∧ (download_song env jitter unzip deleteZip ⟨fs, [], song⟩).song
          = { song with
                file_path := [sanitize_filename song.artist song.title song.song_id],
                downloaded := 1 }
      ∧ (download_song env jitter unzip deleteZip
            (download_song env jitter unzip deleteZip ⟨fs, [], song⟩)).fs = fs
      ∧ (download_song env jitter unzip deleteZip
            (download_song env jitter unzip deleteZip ⟨fs, [], song⟩)).events
          = [Event.finished song.song_id, Event.finished song.song_id]
      ∧ (download_song env jitter unzip deleteZip
            (download_song env jitter unzip deleteZip ⟨fs, [], song⟩)).song
          = (download_song env jitter unzip deleteZip ⟨fs, [], song⟩).song := by
  have e1 : download_song env jitter unzip deleteZip ⟨fs, [], song⟩
      = ⟨fs, [Event.finished song.song_id],
          { song with
              file_path := [sanitize_filename song.artist song.title song.song_id],
              downloaded := 1 }⟩ := by
    unfold download_song
    rw [if_pos h]
    rfl
  rw [e1]
  refine ⟨rfl, rfl, rfl, ?_, ?_, ?_⟩ <;>
  · unfold download_song
    rw [if_pos h]
    try rfl

/-- Witness for C5 at a directory holding the destination of fxSong. -/
theorem download_song_existing_short_circuit_witness :
    (download_song envAllNetwork jitterZero false false ⟨fxHaveFS, [], fxSong⟩).events
        = [Event.finished "KV1"]
      ∧ (download_song envAllNetwork jitterZero false false
            (download_song envAllNetwork jitterZero false false ⟨fxHaveFS, [], fxSong⟩)).events
          = [Event.finished "KV1", Event.finished "KV1"] := by
  have h := download_song_existing_short_circuit envAllNetwork jitterZero false false
    fxHaveFS fxSong (by decide)
  exact ⟨h.2.1, h.2.2.2.2.1⟩

/-! ## Downloader: retry schedule (claim C1) -/

theorem countP_raiseGap_net (env : Nat → Outcome) (jitter : Nat → ℚ) (a : Nat) :
    List.countP isNetB (raiseGap env jitter a) = 0 := by
  cases h : env a <;> simp [raiseGap, h, List.countP_cons, isNetB]

theorem countP_raiseGap_failed (env : Nat → Outcome) (jitter : Nat → ℚ) (a : Nat) :
    List.countP isFailedB (raiseGap env jitter a) = 0 := by
  cases h : env a <;> simp [raiseGap, h, List.countP_cons, isFailedB]

theorem attemptLoop_raise_events (env : Nat → Outcome) (jitter : Nat → ℚ)
    (unzip deleteZip : Bool) (fileName : Name) :
    ∀ (l : List Nat) (st : DLState), (∀ a ∈ l, isRaise (env a) = true) →
      (attemptLoop env jitter unzip deleteZip fileName l st).events
        = st.events ++ raiseTrace env jitter st.song.song_id l := by
  intro l
  induction l with
  | nil => intro st h; simp [attemptLoop, raiseTrace]
  | cons a rest ih =>
    intro st h
    have ha : isRaise (env a) = true := h a (List.mem_cons_self a rest)
    have hrest : ∀ b ∈ rest, isRaise (env b) = true :=
      fun b hb => h b (List.mem_cons_of_mem a hb)
    cases he : env a with
    | raiseNetwork m =>
      by_cases h5 : a = max_retries
      · subst h5
        simp [attemptLoop, he, raiseTrace, pushEvents, raiseMsg]
      · simp [attemptLoop, he, h5, raiseTrace, pushEvents, raiseGap, ih _ hrest]
    | raiseOther m =>
      by_cases h5 : a = max_retries
      · subst h5
        simp [attemptLoop, he, raiseTrace, pushEvents, raiseMsg]
      · simp [attemptLoop, he, h5, raiseTrace, pushEvents, raiseGap, ih _ hrest]
    | success d =>
      rw [he] at ha
      simp [isRaise] at ha

/-- C1 amended: when the destination does not already exist and every
attempt raises, download_song makes exactly max_retries (5) network
attempts and emits exactly one terminal download_failed event carrying the
message of the last exception; between consecutive attempts the backoff
sleep backoff_factor * 2^(attempt-1) + jitter happens only when that
attempt raised a non-network exception: a requests.RequestException is
retried immediately with no sleep (the except requests.RequestException
branch of download_song contains no time.sleep). -/
theorem download_song_all_raise_schedule (env : Nat → Outcome) (jitter : Nat → ℚ)
    (unzip deleteZip : Bool) (fs : FS) (song : Song)
    (h : ∀ a ∈ List.range' 1 max_retries, isRaise (env a) = true)
    (hfs : fsLookup fs (sanitize_filename song.artist song.title song.song_id) = none) :
    (download_song env jitter unzip deleteZip ⟨fs, [], song⟩).events
        = raiseTrace env jitter song.song_id (List.range' 1 max_retries)
      ∧ List.countP isNetB
          (download_song env jitter unzip deleteZip ⟨fs, [], song⟩).events = max_retries
      ∧ List.countP isFailedB
          (download_song env jitter unzip deleteZip ⟨fs, [], song⟩).events = 1 := by
  have hmain : (download_song env jitter unzip deleteZip ⟨fs, [], song⟩).events
      = raiseTrace env jitter song.song_id (List.range' 1 max_retries) := by
    unfold download_song
    rw [if_neg (by rw [hfs]; simp)]
    simpa using attemptLoop_raise_events env jitter unzip deleteZip _ _ ⟨fs, [], song⟩ h
  have hrange : List.range' 1 5 = [1, 2, 3, 4, 5] := rfl
  have htr : raiseTrace env jitter song.song_id [1, 2, 3, 4, 5]
      = Event.net :: (raiseGap env jitter 1
          ++ (Event.net :: (raiseGap env jitter 2
          ++ (Event.net :: (raiseGap env jitter 3
          ++ (Event.net :: (raiseGap env jitter 4
          ++ [Event.net, Event.failed song.song_id (raiseMsg (env 5))]))))))) := by
    simp [raiseTrace, max_retries]
  refine ⟨hmain, ?_, ?_⟩ <;>
    simp [hmain, max_retries, hrange, htr, List.countP_cons, List.countP_append,
      countP_raiseGap_net, countP_raiseGap_failed, isNetB, isFailedB]

/-- Witness for C1 at a backend alternating non-network and network
errors. -/
theorem download_song_all_raise_schedule_witness :
    (download_song envMixedRaise jitterZero true false fxState).events
      = raiseTrace envMixedRaise jitterZero "KV1" (List.range' 1 max_retries) :=
  (download_song_all_raise_schedule envMixedRaise jitterZero true false [] fxSong
    (by decide) (by decide)).1

/-- Counterexample to C1 as stated: with every attempt failing with a
network-layer (requests) exception the loop still makes 5 attempts and
emits one Failed event, but no backoff sleep at all separates consecutive
attempts, contradicting the claimed identical backoff for network-layer
exceptions. -/
theorem download_song_network_error_no_backoff_cex :
    (download_song envAllNetwork jitterZero false false fxState).events
        = [Event.net, Event.net, Event.net, Event.net, Event.net,
           Event.failed "KV1" "connection reset"]
      ∧ List.countP isSleptB
          (download_song envAllNetwork jitterZero false false fxState).events = 0 :=
  ⟨by decide, by decide⟩

/-! ## Downloader: unconditional verification of the destination (claim C10) -/

/-- C10 amended: verification runs on every fully written destination
regardless of its extension (the call at downloader.py:106 is
unconditional); when the destination is still on disk at that point, that
is, when unzip is disabled or the destination lacks a .zip suffix (so the
extraction step has not disposed of the archive first), a destination that
fails to open as a zip archive makes the first attempt end with: the file
deleted from disk, the downloaded flag reset to 0, and exactly one
download_failed event. -/
theorem download_song_invalid_zip_failure (env : Nat → Outcome) (jitter : Nat → ℚ)
    (unzip deleteZip : Bool) (fs : FS) (song : Song)
    (henv : env 1 = Outcome.success FileData.notZip)
    (hnz : ¬(unzip = true
        ∧ pathSuffix (sanitize_filename song.artist song.title song.song_id) = ".zip".toList))
    (hfs : fsLookup fs (sanitize_filename song.artist song.title song.song_id) = none) :
    (download_song env jitter unzip deleteZip ⟨fs, [], song⟩).events
        = [Event.net, Event.failed song.song_id "Zip file verification failed."]
      ∧ (download_song env jitter unzip deleteZip ⟨fs, [], song⟩).song.downloaded = 0
      ∧ fsLookup (download_song env jitter unzip deleteZip ⟨fs, [], song⟩).fs
          (sanitize_filename song.artist song.title song.song_id) = none := by
  have hr : List.range' 1 max_retries = 1 :: [2, 3, 4, 5] := rfl
  have hnz2 : ¬(unzip = true
      ∧ pathSuffix (sanitize_filename song.artist song.title song.song_id)
          = ['.', 'z', 'i', 'p']) := hnz
  refine ⟨?_, ?_, ?_⟩ <;>
  · unfold download_song
    rw [if_neg (by rw [hfs]; simp), hr]
    simp [attemptLoop, henv, pushEvents, successStep, hnz2, verify_zip_file,
      fsLookup_fsInsert_self, fsLookup_fsErase_self]

/-- Witness for C10 at a backend delivering a non-archive payload with
unzip disabled. -/
theorem download_song_invalid_zip_failure_witness :
    (download_song envNotZip jitterZero false false fxState).events
        = [Event.net, Event.failed "KV1" "Zip file verification failed."]
      ∧ (download_song envNotZip jitterZero false false fxState).song.downloaded = 0
      ∧ fsLookup (download_song envNotZip jitterZero false false fxState).fs
          (sanitize_filename "a" "b" "KV1") = none :=
  download_song_invalid_zip_failure envNotZip jitterZero false false [] fxSong
    rfl (by decide) (by decide)

/-- Counterexample to C10 as stated: with unzip enabled on a .zip-suffixed
destination that is not a valid archive, extraction disposes of the archive
before the verification call, verification raises instead of returning
False, each attempt is retried, and at the end the item's downloaded flag
is still 1 (not reset to false) and no verification-failure event was ever
emitted, although the final destination file is indeed gone and one
terminal Failed (from the escaped FileNotFoundError) is emitted. -/
theorem download_song_unzip_verify_cex :
    (download_song envNotZip jitterZero true true fxState).song.downloaded = 1
      ∧ fsLookup (download_song envNotZip jitterZero true true fxState).fs
          (sanitize_filename "a" "b" "KV1") = none
      ∧ List.countP isFailedB (download_song envNotZip jitterZero true true fxState).events = 1
      ∧ Event.failed "KV1" "Zip file verification failed."
          ∉ (download_song envNotZip jitterZero true true fxState).events :=
  ⟨by decide, by decide, by decide, by decide⟩

/-! ## Extraction: payload renaming (claim C7) -/

theorem not_mem_keys_fsErase (fs : FS) (n : Name) : n ∉ (fsErase fs n).map Prod.fst := by
  intro h
  rcases List.mem_map.mp h with ⟨p, hp, hpn⟩
  have := (List.mem_filter.mp hp).2
  rw [hpn] at this
  simp at this

theorem keys_nodup_fsErase (fs : FS) (n : Name) (h : (fs.map Prod.fst).Nodup) :
    ((fsErase fs n).map Prod.fst).Nodup :=
  List.Nodup.sublist (List.Sublist.map Prod.fst (List.filter_sublist fs)) h

theorem keys_nodup_fsInsert (fs : FS) (n : Name) (v : FileData)
    (h : (fs.map Prod.fst).Nodup) : ((fsInsert fs n v).map Prod.fst).Nodup := by
  simp only [fsInsert, List.map_cons, List.nodup_cons]
  exact ⟨not_mem_keys_fsErase fs n, keys_nodup_fsErase fs n h⟩

theorem keys_nodup_extract_foldl (members : List Name) :
    ∀ (fs : FS), (fs.map Prod.fst).Nodup →
      ((members.foldl (fun a m => fsInsert a m FileData.notZip) fs).map Prod.fst).Nodup := by
  induction members with
  | nil => intro fs h; simpa using h
  | cons m rest ih =>
    intro fs h
    simpa [List.foldl_cons] using ih (fsInsert fs m FileData.notZip) (keys_nodup_fsInsert fs m _ h)

theorem keys_nodup_extractArchive (fs : FS) (zipName : Name)
    (h : (fs.map Prod.fst).Nodup) : ((extractArchive fs zipName).map Prod.fst).Nodup := by
  unfold extractArchive
  cases hl : fsLookup fs zipName with
  | none => exact h
  | some d =>
    cases d with
    | notZip => exact h
    | zip members bad => exact keys_nodup_extract_foldl members fs h

theorem fsLookup_rename_isSome (fs : FS) (f new n : Name) (v : FileData)
    (h1 : n ≠ f) (h2 : (fsLookup fs n).isSome = true) :
    (fsLookup (fsInsert (fsErase fs f) new v) n).isSome = true := by
  by_cases he : n = new
  · rw [he, fsLookup_fsInsert_self]
    rfl
  · rw [fsLookup_fsInsert_ne _ _ _ _ he, fsLookup_fsErase_ne _ _ _ h1]
    exact h2

theorem renameLoop_mono (base : Name) :
    ∀ (names : List Name) (files : List Name) (fs : FS) (x : Name),
      x ∈ files → x ∈ (renameLoop base names (files, fs)).1 := by
  intro names
  induction names with
  | nil => intro files fs x hx; simpa [renameLoop] using hx
  | cons n rest ih =>
    intro files fs x hx
    by_cases hc : containsSeq base n = true
        ∧ (pathSuffix n = ".mp3".toList ∨ pathSuffix n = ".cdg".toList)
    · cases hl : fsLookup fs n with
      | some v =>
        simp only [renameLoop, if_pos hc, hl]
        exact ih _ _ x (List.mem_append_left _ hx)
      | none =>
        simp only [renameLoop, if_pos hc, hl]
        exact ih _ _ x hx
    · simp only [renameLoop, if_neg hc]
      exact ih _ _ x hx

theorem renameLoop_mem (base : Name) :
    ∀ (names : List Name) (files : List Name) (fs : FS),
      names.Nodup → (∀ n ∈ names, (fsLookup fs n).isSome = true) →
      ∀ f ∈ names,
        containsSeq base f = true →
        (pathSuffix f = ".mp3".toList ∨ pathSuffix f = ".cdg".toList) →
        replaceL base (kvName base) f ∈ (renameLoop base names (files, fs)).1 := by
  intro names
  induction names with
  | nil => intro files fs _ _ f hf; simp at hf
  | cons n rest ih =>
    intro files fs hnd hinv f hf hc hsuf
    have hndr : rest.Nodup := (List.nodup_cons.mp hnd).2
    have hnn : n ∉ rest := (List.nodup_cons.mp hnd).1
    rcases List.mem_cons.mp hf with hfe | hfr
    · subst hfe
      have hcond : containsSeq base f = true
          ∧ (pathSuffix f = ".mp3".toList ∨ pathSuffix f = ".cdg".toList) := ⟨hc, hsuf⟩
      have hsome := hinv f (List.mem_cons_self f rest)
      rcases Option.isSome_iff_exists.mp hsome with ⟨v, hv⟩
      simp only [renameLoop, if_pos hcond, hv]
      exact renameLoop_mono base rest _ _ _ (List.mem_append_right _ (List.mem_singleton.mpr rfl))
    · have hinvr : ∀ m ∈ rest, (fsLookup fs m).isSome = true :=
        fun m hm => hinv m (List.mem_cons_of_mem n hm)
      by_cases hcn : containsSeq base n = true
          ∧ (pathSuffix n = ".mp3".toList ∨ pathSuffix n = ".cdg".toList)
      · cases hl : fsLookup fs n with
        | some v =>
          simp only [renameLoop, if_pos hcn, hl]
          refine ih _ _ hndr ?_ f hfr hc hsuf
          intro m hm
          exact fsLookup_rename_isSome fs n _ m v (fun he => hnn (he ▸ hm)) (hinvr m hm)
        | none =>
          simp only [renameLoop, if_pos hcn, hl]
          exact ih _ _ hndr hinvr f hfr hc hsuf
      · simp only [renameLoop, if_neg hcn]
        exact ih _ _ hndr hinvr f hfr hc hsuf

/-- C7: for every file in the directory after extraction whose name
contains the numeric id (the item id with its KV prefix removed) and whose
extension is .mp3 or .cdg, the extraction step renames it, replacing the
numeric id by the full item id, and appends the resulting filename to the
returned list (stated for directories without duplicate names, which every
reachable directory state satisfies). -/
theorem extraction_rename_appends (fs : FS) (song_id : String) (zipName : Name)
    (deleteZip : Bool) (f : Name)
    (hkv : song_id.toList.take 2 = ['K', 'V'])
    (hnd : (fs.map Prod.fst).Nodup)
    (hf : f ∈ (extractArchive fs zipName).map Prod.fst)
    (hc : containsSeq (baseId song_id) f = true)
    (hsuf : pathSuffix f = ".mp3".toList ∨ pathSuffix f = ".cdg".toList) :
    replaceL (baseId song_id) song_id.toList f
      ∈ (handle_zip_extraction fs zipName song_id deleteZip).1 := by
  have hkvn : kvName (baseId song_id) = song_id.toList := by
    unfold baseId kvName
    rw [if_pos hkv]
    have := List.take_append_drop 2 song_id.toList
    rw [hkv] at this
    exact this
  rw [← hkvn]
  have hnd1 := keys_nodup_extractArchive fs zipName hnd
  have hinv : ∀ n ∈ (extractArchive fs zipName).map Prod.fst,
      (fsLookup (extractArchive fs zipName) n).isSome = true :=
    fun n hn => fsLookup_isSome_of_mem _ n hn
  have hmem := renameLoop_mem (baseId song_id) ((extractArchive fs zipName).map Prod.fst)
    [] (extractArchive fs zipName) hnd1 hinv f hf hc hsuf
  unfold handle_zip_extraction
  by_cases hd : deleteZip = true
  · rw [hd]
    simpa using hmem
  · have hd2 : deleteZip = false := by
      cases deleteZip
      · rfl
      · exact absurd rfl hd
    rw [hd2]
    simp only [if_neg Bool.false_ne_true]
    cases hl : fsLookup (renameLoop (baseId song_id)
        ((extractArchive fs zipName).map Prod.fst) ([], extractArchive fs zipName)).2 zipName with
    | none => simpa using hmem
    | some v => simpa using Or.inl hmem

/-- Witness for C7: an archive holding track42.mp3 extracted for item
KV42 yields trackKV42.mp3 in the returned filename list. -/
theorem extraction_rename_appends_witness :
    replaceL (baseId "KV42") "KV42".toList "track42.mp3".toList
      ∈ (handle_zip_extraction fxZipFS "archive.zip".toList "KV42" false).1 :=
  extraction_rename_appends fxZipFS "KV42" "archive.zip".toList false "track42.mp3".toList
    (by decide) (by decide) (by decide) (by decide) (Or.inl (by decide))

/-! ## Extraction disposes of the archive before verification (claim C2) -/

theorem take_append_pathSuffix (n : Name) :
    n.take (n.length - (pathSuffix n).length) ++ pathSuffix n = n := by
  simp only [pathSuffix]
  split
  · split
    · rename_i hk hi
      rw [List.length_drop, Nat.sub_sub_self (by omega)]
      exact List.take_append_drop _ n
    · simp
  · simp

theorem bakName_eq_append (n : Name) (h : pathSuffix n = ".zip".toList) :
    bakName n = n ++ ".bak".toList := by
  have hs := take_append_pathSuffix n
  rw [h] at hs
  unfold bakName dropSuffixN
  rw [h]
  have hzb : (".zip.bak".toList : Name) = ".zip".toList ++ ".bak".toList := rfl
  rw [hzb, ← List.append_assoc, hs]

theorem bakName_ne (n : Name) (h : pathSuffix n = ".zip".toList) : bakName n ≠ n := by
  rw [bakName_eq_append n h]
  intro he
  have hlen := congrArg List.length he
  simp at hlen

theorem handle_zip_extraction_removes_archive (fs : FS) (zipName : Name)
    (song_id : String) (deleteZip : Bool) (hsuf : pathSuffix zipName = ".zip".toList) :
    fsLookup (handle_zip_extraction fs zipName song_id deleteZip).2 zipName = none := by
  unfold handle_zip_extraction
  by_cases hd : deleteZip = true
  · rw [hd]
    simpa using fsLookup_fsErase_self _ zipName
  · have hd2 : deleteZip = false := by
      cases deleteZip
      · rfl
      · exact absurd rfl hd
    rw [hd2]
    simp only [if_neg Bool.false_ne_true]
    cases hl : fsLookup (renameLoop (baseId song_id)
        ((extractArchive fs zipName).map Prod.fst) ([], extractArchive fs zipName)).2 zipName with
    | none => simpa using hl
    | some v =>
      have hne : zipName ≠ bakName zipName := fun he => bakName_ne zipName hsuf he.symm
      simp only []
      rw [fsLookup_fsInsert_ne _ _ _ _ hne]
      exact fsLookup_fsErase_self _ zipName

theorem attemptLoop_success_no_finished (env : Nat → Outcome) (jitter : Nat → ℚ)
    (deleteZip : Bool) (fileName : Name) (hsuf : pathSuffix fileName = ".zip".toList) :
    ∀ (l : List Nat) (st : DLState),
      (∀ a ∈ l, isSuccess (env a) = true) →
      Event.finished st.song.song_id ∉ st.events →
      Event.finished st.song.song_id
        ∉ (attemptLoop env jitter true deleteZip fileName l st).events := by
  intro l
  induction l with
  | nil => intro st _ h0; simpa [attemptLoop] using h0
  | cons a rest ih =>
    intro st hs h0
    have ha : isSuccess (env a) = true := hs a (List.mem_cons_self a rest)
    have hrest : ∀ b ∈ rest, isSuccess (env b) = true :=
      fun b hb => hs b (List.mem_cons_of_mem a hb)
    cases he : env a with
    | raiseNetwork m => rw [he] at ha; simp [isSuccess] at ha
    | raiseOther m => rw [he] at ha; simp [isSuccess] at ha
    | success d =>
      have hss : successStep true deleteZip fileName d (pushEvents st [Event.net])
          = ⟨(handle_zip_extraction (fsInsert st.fs fileName d) fileName
                st.song.song_id deleteZip).2,
             st.events ++ [Event.net],
             { st.song with
                 extracted := 1,
                 file_path := (handle_zip_extraction (fsInsert st.fs fileName d) fileName
                   st.song.song_id deleteZip).1,
                 downloaded := 1 }⟩ := by
        unfold successStep pushEvents
        rw [if_pos ⟨rfl, hsuf⟩]
      have hv : verify_zip_file
          (successStep true deleteZip fileName d (pushEvents st [Event.net])).fs fileName
          = Except.error "FileNotFoundError" := by
        rw [hss]
        unfold verify_zip_file
        rw [handle_zip_extraction_removes_archive _ _ _ _ hsuf]
      simp only [attemptLoop, he, hv]
      by_cases h5 : a = max_retries
      · rw [if_pos h5, hss]
        simp [pushEvents, h0]
      · rw [if_neg h5, hss]
        refine ih _ hrest ?_
        simp [pushEvents, h0]

/-- C2: with unzip enabled on a destination carrying a .zip suffix, every
attempt that fully writes the archive has extraction dispose of the archive
(unlink, or rename to the .zip.bak sibling) before the verification call,
so verification always raises FileNotFoundError on the vanished path, its
own unlink raises again, the exception escapes into the generic per-attempt
handler and the attempt is retried; consequently such a run never emits a
download_finished (Completed) event for the item. -/
theorem download_song_unzip_disposal_never_finishes (env : Nat → Outcome) (jitter : Nat → ℚ)
    (deleteZip : Bool) (fs : FS) (song : Song)
    (h : ∀ a ∈ List.range' 1 max_retries, isSuccess (env a) = true)
    (hsuf : pathSuffix (sanitize_filename song.artist song.title song.song_id) = ".zip".toList)
    (hfs : fsLookup fs (sanitize_filename song.artist song.title song.song_id) = none) :
    Event.finished song.song_id
      ∉ (download_song env jitter true deleteZip ⟨fs, [], song⟩).events := by
  unfold download_song
  rw [if_neg (by rw [hfs]; simp)]
  exact attemptLoop_success_no_finished env jitter deleteZip _ hsuf _ ⟨fs, [], song⟩ h (by simp)

/-- Witness for C2: a backend that always delivers a well-formed archive,
with delete-archive-after-unzip enabled, never completes the item. -/
theorem download_song_unzip_disposal_never_finishes_witness :
    Event.finished "KV1" ∉ (download_song envGoodZip jitterZero true true fxState).events :=
  download_song_unzip_disposal_never_finishes envGoodZip jitterZero true [] fxSong
    (by decide) (by decide) (by decide)
